import Mathlib

/-!
Verification of the SuperHaxagon bot (src/SuperHaxagon.cpp) against its
natural-language specification.

The development shallowly embeds the program:
* `Wall` mirrors the packed 20-byte wall record (the two reserved DWORDs and
  the 3 padding bytes carry no information and are omitted from the model).
* `GameState` holds the remote fields the program reads and writes
  (both mirrored player-angle DWORDs, the slot count, the three input-state
  bytes and the world angle).
* The per-tick slot selection from `main` is `minDistances` / `argmaxFirst` /
  `selectSlot`.  C++ behaviour that is undefined (division or modulo by zero,
  out-of-bounds vector indexing) is modelled by `Option`, with `none` for the
  undefined outcome.
* `GetPlayerSlot` performs `float` arithmetic in the C++ source; it is
  modelled exactly by `F32`, a value-level binary32 model (round to nearest,
  ties to even) adequate for the nonnegative normal range the program uses.
* The `Memory` wrappers around ReadProcessMemory / WriteProcessMemory assert
  that the full byte count transferred; the assert-or-abort behaviour is
  modelled by `Option` over the oracle outcome of the system call.
-/

/-- Largest DWORD value; `std::vector<DWORD> minDistances(numSlots, -1)`
initializes every per-slot minimum to this value. -/
def DWORD_MAX : Nat := 4294967295

/-- One wall record, as read from the target process.  `slot` and `distance`
are DWORDs, `enabled` is the BYTE at offset 8 interpreted as a truth value. -/
structure Wall where
  slot : Nat
  distance : Nat
  enabled : Bool
deriving DecidableEq, Repr

/-- The filter in the selection lambda: `a.distance > 0 && a.enabled`. -/
def wallQualifies (w : Wall) : Bool :=
  decide (0 < w.distance) && w.enabled

/-- One step of the `std::for_each` body over `minDistances`:
`minDistances[a.slot % numSlots] = min(minDistances[a.slot % numSlots], a.distance)`
for a qualifying wall.  Indexing outside the vector (which happens exactly
when `numSlots = 0`, so the vector is empty) is undefined behaviour in the
C++ source and yields `none` here. -/
def applyWall (n : Nat) (acc : List Nat) (w : Wall) : Option (List Nat) :=
  if wallQualifies w then
    match acc[w.slot % n]? with
    | some d => some (acc.set (w.slot % n) (min d w.distance))
    | none => none
  else
    some acc

/-- The whole `std::for_each` pass: fold `applyWall` over the walls starting
from the freshly initialized vector of `numSlots` copies of `DWORD_MAX`. -/
def minDistances (n : Nat) (walls : List Wall) : Option (List Nat) :=
  walls.foldl (fun acc w => acc.bind fun l => applyWall n l w)
    (some (List.replicate n DWORD_MAX))

/-- Maximum of a list of naturals, 0 for the empty list. -/
def listMax : List Nat → Nat
  | [] => 0
  | x :: xs => max x (listMax xs)

/-- Index returned by `std::max_element` (as `std::distance` from `begin`):
the first index holding the maximum, and 0 on an empty range since
`max_element` then returns `end = begin`. -/
def argmaxFirst : List Nat → Nat
  | [] => 0
  | x :: xs => if listMax xs ≤ x then 0 else argmaxFirst xs + 1

/-- The per-tick slot selection of `main`: on an empty wall list no slot is
chosen (`some none`); otherwise the first maximal entry of the per-slot
minimum-distance vector is the target slot.  `none` marks a tick whose C++
execution is undefined. -/
def selectSlot (n : Nat) (walls : List Wall) : Option (Option Nat) :=
  if walls.isEmpty then some none
  else
    match minDistances n walls with
    | some r => some (some (argmaxFirst r))
    | none => none

/-- One update of the per-slot minimum for slot `i`, as the specification
words it: an obstacle with `enabled` true and `distance > 0` whose
`slotIndex mod slotCount` is `i` lowers the stored minimum to its
distance. -/
def specStep (n i : Nat) (d : Nat) (w : Wall) : Nat :=
  if (w.enabled && decide (0 < w.distance)) && w.slot % n == i
    then min d w.distance else d

/-- Per-slot minimum distance as the specification words it: starting from
the maximum representable distance, fold `specStep` over the obstacles. -/
def specMinDistance (n : Nat) (walls : List Wall) (i : Nat) : Nat :=
  walls.foldl (specStep n i) DWORD_MAX

/-- The remote fields of the target the program reads or writes:  the two
mirrored player-angle DWORDs, the slot count, the three input-state bytes
(MouseDownLeft, MouseDownRight, MouseDown) and the world angle. -/
structure GameState where
  playerAngle : Nat
  playerAngle2 : Nat
  numSlots : Nat
  mouseDownLeft : Nat
  mouseDownRight : Nat
  mouseDown : Nat
  worldAngle : Nat
deriving DecidableEq, Repr

/-- `SuperHexagonApi::SetPlayerSlot`: computes
`360 / numSlots * (slot % numSlots) + 180 / numSlots` in DWORD arithmetic
(the quotients are floors; no intermediate exceeds 540 so there is no
wrap-around) and writes it to both mirrored player-angle fields.  When
`numSlots = 0` the C++ division and modulo by zero are undefined behaviour,
modelled as `none`. -/
def SetPlayerSlot (st : GameState) (slot : Nat) : Option GameState :=
  if st.numSlots = 0 then none
  else
    let angle := 360 / st.numSlots * (slot % st.numSlots) + 180 / st.numSlots
    some { st with playerAngle := angle, playerAngle2 := angle }

/-- Fuel-driven floor of the base-2 logarithm: `log2Aux fuel n` equals
`floor (log2 n)` (0 at 0 and 1) whenever `fuel ≥ n`, by structural recursion
so that kernel reduction can evaluate it. -/
def log2Aux : Nat → Nat → Nat
  | 0, _ => 0
  | fuel + 1, n => if n ≤ 1 then 0 else log2Aux fuel (n / 2) + 1

/-- Floor of the base-2 logarithm, 0 at 0. -/
def natLog2 (n : Nat) : Nat := log2Aux n n

/-- A binary32 value `m * 2 ^ e`, nonnegative.  The representation is not
required to be canonical; only the denoted value matters. -/
structure F32 where
  m : Nat
  e : Int
deriving DecidableEq, Repr

/-- Round `m / 2 ^ s` to the nearest integer, ties to even. -/
def roundMant (m : Nat) (s : Nat) : Nat :=
  if s = 0 then m
  else
    let q := m / 2 ^ s
    let r := m % 2 ^ s
    let half := 2 ^ (s - 1)
    if half < r then q + 1
    else if r < half then q
    else if q % 2 = 1 then q + 1 else q

/-- Round the exact value `m * 2 ^ e` to a 24-bit significand (nearest,
ties to even).  Values below `2 ^ 24` are already exactly representable. -/
def normRound (m : Nat) (e : Int) : F32 :=
  if m < 2 ^ 24 then ⟨m, e⟩
  else
    let s := natLog2 m - 23
    ⟨roundMant m s, e + s⟩

/-- Conversion of an unsigned integer to binary32 (`static_cast<float>`). -/
def ofNatF (n : Nat) : F32 := normRound n 0

/-- Binary32 multiplication: the exact product rounded. -/
def mulF (x y : F32) : F32 := normRound (x.m * y.m) (x.e + y.e)

/-- Binary32 division of `x` by the exactly representable positive integer
`d` (the program only divides by `360.0f`): the exact quotient rounded to
nearest, ties to even, using a 64-bit scaled quotient plus sticky
remainder. -/
def divF (x : F32) (d : Nat) : F32 :=
  if x.m = 0 then ⟨0, 0⟩
  else
    let q := x.m * 2 ^ 64 / d
    let r := x.m * 2 ^ 64 % d
    let s : Nat := natLog2 q - 23
    let q2 := q / 2 ^ s
    let rem := q % 2 ^ s
    let num := 2 * (rem * d + r)
    let den := 2 ^ s * d
    let m2 :=
      if den < num then q2 + 1
      else if num < den then q2
      else if q2 % 2 = 1 then q2 + 1 else q2
    ⟨m2, x.e - 64 + (s : Int)⟩

/-- `static_cast<DWORD>` of a nonnegative binary32 value: truncation. -/
def truncF (x : F32) : Nat :=
  match x.e with
  | Int.ofNat k => x.m * 2 ^ k
  | Int.negSucc k => x.m / 2 ^ (k + 1)

/-- The arithmetic of `SuperHexagonApi::GetPlayerSlot`:
`static_cast<DWORD>(static_cast<float>(angle) / 360.0f * numSlots)` with
every operation performed in binary32. -/
def gpsVal (angle numSlots : Nat) : Nat :=
  truncF (mulF (divF (ofNatF angle) 360) (ofNatF numSlots))

/-- `SuperHexagonApi::GetPlayerSlot` over the modelled state. -/
def GetPlayerSlot (st : GameState) : Nat :=
  gpsVal st.playerAngle st.numSlots

/-- `SuperHexagonApi::GetPlayerAngle` over the modelled state. -/
def GetPlayerAngle (st : GameState) : Nat := st.playerAngle

/-- `SuperHexagonApi::StartMovingLeft`: writes 1 to MouseDownLeft and to the
generic MouseDown byte. -/
def StartMovingLeft (st : GameState) : GameState :=
  { st with mouseDownLeft := 1, mouseDown := 1 }

/-- `SuperHexagonApi::StartMovingRight`: writes 1 to MouseDownRight and to
the generic MouseDown byte. -/
def StartMovingRight (st : GameState) : GameState :=
  { st with mouseDownRight := 1, mouseDown := 1 }

/-- `SuperHexagonApi::ReleaseMouse`: writes 0 to all three input-state
bytes. -/
def ReleaseMouse (st : GameState) : GameState :=
  { st with mouseDownLeft := 0, mouseDownRight := 0, mouseDown := 0 }

/-- The specification's `setMovement` direction argument. -/
inductive MoveDir where
  | left
  | right
  | released
deriving DecidableEq, Repr

/-- The specification's `setMovement`, dispatching to the three writers. -/
def setMovement : MoveDir → GameState → GameState
  | MoveDir.left, st => StartMovingLeft st
  | MoveDir.right, st => StartMovingRight st
  | MoveDir.released, st => ReleaseMouse st

/-- Apply a sequence of `setMovement` calls in order. -/
def applyMoves (ds : List MoveDir) (st : GameState) : GameState :=
  ds.foldl (fun s d => setMovement d s) st

/-- `Memory::Read<T>`: the system call reports `success` and `numRead`
bytes transferred out of `size = sizeof(T)` requested; the C++ asserts
`success && numRead == sizeof(T)` and only then returns the data.  The
abort of a failed assert is modelled as `none`. -/
def memoryRead (success : Bool) (numRead : Nat) (size : Nat) (data : α) :
    Option α :=
  if success = true ∧ numRead = size then some data else none

/-- `Memory::ReadBytes`: asserts `success && numRead == length` before the
caller may use the buffer. -/
def memoryReadBytes (success : Bool) (numRead : Nat) (length : Nat)
    (buffer : List Nat) : Option (List Nat) :=
  if success = true ∧ numRead = length then some buffer else none

/-- `Memory::Write<T>`: asserts `success && numWritten == sizeof(T)`. -/
def memoryWrite (success : Bool) (numWritten : Nat) (size : Nat) :
    Option Unit :=
  if success = true ∧ numWritten = size then some () else none

/-- One iteration of the control loop in `main` on the freshly read wall
list: when the list is empty nothing at all happens; otherwise the target
slot is computed, one status line `(targetSlot, worldAngle)` is emitted and
`SetPlayerSlot` repositions the player.  `none` marks an iteration whose
C++ execution is undefined. -/
def tick (st : GameState) (walls : List Wall) :
    Option (GameState × List (Nat × Nat)) :=
  if walls.isEmpty then some (st, [])
  else
    match minDistances st.numSlots walls with
    | none => none
    | some r =>
      let t := argmaxFirst r
      match SetPlayerSlot st t with
      | none => none
      | some st2 => some (st2, [(t, st.worldAngle)])

/-! ### Supporting lemmas: list maximum and first-maximum index -/

/-- Every entry of a list is bounded by `listMax`. -/
theorem le_listMax {l : List Nat} {i d : Nat} (h : l[i]? = some d) :
    d ≤ listMax l := by
  induction l generalizing i with
  | nil => simp at h
  | cons x xs ih =>
    cases i with
    | zero =>
      simp at h
      simp [listMax, h.symm, le_max_iff]
    | succ j =>
      simp at h
      exact le_trans (ih h) (by simp [listMax])

/-- A list whose maximum exceeds some value is nonempty; contrapositive
helper used below. -/
theorem listMax_pos_ne_nil {l : List Nat} {x : Nat} (h : ¬ listMax l ≤ x) :
    l ≠ [] := by
  intro he
  subst he
  simp [listMax] at h

/-- The index computed by `argmaxFirst` is in range for nonempty lists. -/
theorem argmaxFirst_lt {l : List Nat} (h : l ≠ []) :
    argmaxFirst l < l.length := by
  induction l with
  | nil => exact absurd rfl h
  | cons x xs ih =>
    by_cases hc : listMax xs ≤ x
    · simp [argmaxFirst, hc]
    · have hxs : xs ≠ [] := listMax_pos_ne_nil hc
      simp only [argmaxFirst, if_neg hc, List.length_cons]
      exact Nat.succ_lt_succ (ih hxs)

/-- `argmaxFirst` indeed points at the maximum value. -/
theorem argmaxFirst_getElem {l : List Nat} (h : l ≠ []) :
    l[argmaxFirst l]? = some (listMax l) := by
  induction l with
  | nil => exact absurd rfl h
  | cons x xs ih =>
    by_cases hc : listMax xs ≤ x
    · simp [argmaxFirst, hc, listMax, max_eq_left hc]
    · have hxs : xs ≠ [] := listMax_pos_ne_nil hc
      have hlt : x ≤ listMax xs := le_of_lt (lt_of_not_le hc)
      simp only [argmaxFirst, if_neg hc, listMax, max_eq_right hlt]
      simpa using ih hxs

/-- `argmaxFirst` points at the FIRST occurrence of the maximum: any index
holding the maximum is at or after it. -/
theorem argmaxFirst_first {l : List Nat} {j : Nat}
    (h : l[j]? = some (listMax l)) : argmaxFirst l ≤ j := by
  induction l generalizing j with
  | nil => simp at h
  | cons x xs ih =>
    by_cases hc : listMax xs ≤ x
    · simp [argmaxFirst, hc]
    · have hlt : x < listMax xs := lt_of_not_le hc
      have hmax : listMax (x :: xs) = listMax xs := by
        simp [listMax, max_eq_right (le_of_lt hlt)]
      cases j with
      | zero =>
        rw [hmax] at h
        simp at h
        omega
      | succ j2 =>
        rw [hmax] at h
        simp only [List.getElem?_cons_succ] at h
        simp only [argmaxFirst, if_neg hc]
        exact Nat.succ_le_succ (ih h)

/-- The maximum of a constant list is at most the constant. -/
theorem listMax_replicate_le (k v : Nat) : listMax (List.replicate k v) ≤ v := by
  induction k with
  | zero => simp [listMax]
  | succ k2 ih => simpa [List.replicate_succ, listMax] using ih

/-- On a constant list the first maximal index is 0. -/
theorem argmaxFirst_replicate (n v : Nat) :
    argmaxFirst (List.replicate n v) = 0 := by
  cases n with
  | zero => rfl
  | succ k =>
    simp [List.replicate_succ, argmaxFirst, listMax_replicate_le k v]

/-! ### Supporting lemmas: the minimum-distance fold -/

/-- A wall that fails the selection filter leaves every per-slot minimum
unchanged. -/
theorem specStep_not_qual {w : Wall} (n i d : Nat)
    (hq : wallQualifies w = false) : specStep n i d w = d := by
  have hb : (w.enabled && decide (0 < w.distance)) = false := by
    cases h1 : decide (0 < w.distance) <;> cases h2 : w.enabled <;>
      simp_all [wallQualifies]
  simp [specStep, hb]

/-- A qualifying wall aimed at slot `i` lowers that slot's minimum. -/
theorem specStep_qual_hit {w : Wall} {n i : Nat} (d : Nat)
    (hq : wallQualifies w = true) (hi : w.slot % n = i) :
    specStep n i d w = min d w.distance := by
  have hb : (w.enabled && decide (0 < w.distance)) = true := by
    cases h1 : decide (0 < w.distance) <;> cases h2 : w.enabled <;>
      simp_all [wallQualifies]
  simp [specStep, hb, hi]

/-- A wall aimed at a different slot leaves slot `i` unchanged. -/
theorem specStep_miss {w : Wall} {n i : Nat} (d : Nat)
    (hi : w.slot % n ≠ i) : specStep n i d w = d := by
  have hb : (w.slot % n == i) = false := by
    simp [hi]
  simp [specStep, hb]

/-- Main fold invariant: starting the `std::for_each` fold from any vector
of length `numSlots ≥ 1` succeeds, preserves the length, and computes in
every slot exactly the specification's per-slot fold seeded with that
slot's initial entry. -/
theorem minDistFold_spec {n : Nat} (hn : 1 ≤ n) :
    ∀ (walls : List Wall) (l : List Nat), l.length = n →
    ∃ r, walls.foldl (fun acc w => acc.bind fun l2 => applyWall n l2 w)
        (some l) = some r ∧ r.length = n ∧
      ∀ i d0, l[i]? = some d0 →
        r[i]? = some (walls.foldl (specStep n i) d0) := by
  intro walls
  induction walls with
  | nil =>
    intro l hl
    exact ⟨l, rfl, hl, by intro i d0 h; simpa using h⟩
  | cons w ws ih =>
    intro l hl
    cases hq : wallQualifies w with
    | false =>
      have happ : applyWall n l w = some l := by simp [applyWall, hq]
      obtain ⟨r, hr, hrl, hri⟩ := ih l hl
      refine ⟨r, ?_, hrl, ?_⟩
      · simpa [happ] using hr
      · intro i d0 h
        rw [List.foldl_cons, specStep_not_qual n i d0 hq]
        exact hri i d0 h
    | true =>
      have hidx : w.slot % n < l.length := by
        rw [hl]; exact Nat.mod_lt _ (by omega)
      have hget : l[w.slot % n]? = some l[w.slot % n] :=
        List.getElem?_eq_getElem hidx
      have happ : applyWall n l w =
          some (l.set (w.slot % n) (min l[w.slot % n] w.distance)) := by
        simp [applyWall, hq, hget]
      have hl2 : (l.set (w.slot % n) (min l[w.slot % n] w.distance)).length
          = n := by simp [hl]
      obtain ⟨r, hr, hrl, hri⟩ :=
        ih (l.set (w.slot % n) (min l[w.slot % n] w.distance)) hl2
      refine ⟨r, ?_, hrl, ?_⟩
      · simpa [happ] using hr
      · intro i d0 h
        rw [List.foldl_cons]
        by_cases hi : w.slot % n = i
        · have hd0 : d0 = l[w.slot % n] := by
            subst hi
            rw [hget] at h
            exact (Option.some_inj.mp h).symm
          rw [specStep_qual_hit d0 hq hi]
          have hset : (l.set (w.slot % n)
              (min l[w.slot % n] w.distance))[i]? =
              some (min d0 w.distance) := by
            subst hi
            rw [hd0]
            exact List.getElem?_set_eq_of_lt _ hidx
          exact hri i (min d0 w.distance) hset
        · rw [specStep_miss d0 hi]
          have hset : (l.set (w.slot % n)
              (min l[w.slot % n] w.distance))[i]? = some d0 := by
            rw [List.getElem?_set_ne hi]
            exact h
          exact hri i d0 hset

/-- The minimum-distance vector of the program, for `numSlots ≥ 1`: it is
built successfully, has one entry per slot, and each entry equals the
specification's per-slot minimum. -/
theorem minDistances_spec {n : Nat} (hn : 1 ≤ n) (walls : List Wall) :
    ∃ r, minDistances n walls = some r ∧ r.length = n ∧
      ∀ i, i < n → r[i]? = some (specMinDistance n walls i) := by
  obtain ⟨r, hr, hrl, hri⟩ :=
    minDistFold_spec hn walls (List.replicate n DWORD_MAX) (by simp)
  refine ⟨r, hr, hrl, ?_⟩
  intro i hi
  have hrep : (List.replicate n DWORD_MAX)[i]? = some DWORD_MAX := by
    simp [List.getElem?_replicate, hi]
  exact hri i DWORD_MAX hrep

/-- When no wall qualifies, the fold leaves the vector untouched. -/
theorem foldl_no_qual (n : Nat) :
    ∀ (walls : List Wall) (l : List Nat),
    (∀ w ∈ walls, wallQualifies w = false) →
    walls.foldl (fun acc w => acc.bind fun l2 => applyWall n l2 w)
      (some l) = some l := by
  intro walls
  induction walls with
  | nil => intro l _; rfl
  | cons w ws ih =>
    intro l hall
    have hq : wallQualifies w = false := hall w (by simp)
    have happ : applyWall n l w = some l := by simp [applyWall, hq]
    have hws : ∀ w2 ∈ ws, wallQualifies w2 = false := by
      intro w2 hw2; exact hall w2 (by simp [hw2])
    simpa [happ] using ih l hws

/-- `none` is absorbing for the fold. -/
theorem foldl_step_none (n : Nat) (walls : List Wall) :
    walls.foldl (fun acc w => acc.bind fun l2 => applyWall n l2 w)
      none = none := by
  induction walls with
  | nil => rfl
  | cons w ws ih => simpa using ih

/-- With `numSlots = 0` the minimum-distance vector is empty, so the first
qualifying wall indexes out of bounds (the C++ modulo by zero / OOB write)
and the fold fails. -/
theorem minDistances_zero_of_qual {walls : List Wall}
    (h : ∃ w ∈ walls, wallQualifies w = true) :
    minDistances 0 walls = none := by
  obtain ⟨w0, hw0, hq0⟩ := h
  unfold minDistances
  induction walls with
  | nil => simp at hw0
  | cons w ws ih =>
    cases hq : wallQualifies w with
    | true =>
      have hacc : ((some (List.replicate 0 DWORD_MAX)).bind
          fun l => applyWall 0 l w) = none := by
        simp [applyWall, hq]
      rw [List.foldl_cons, hacc]
      exact foldl_step_none 0 ws
    | false =>
      have hmem : w0 ∈ ws := by
        rcases List.mem_cons.mp hw0 with he | hm
        · subst he; rw [hq0] at hq; cases hq
        · exact hm
      have hacc : ((some (List.replicate 0 DWORD_MAX)).bind
          fun l => applyWall 0 l w) = some (List.replicate 0 DWORD_MAX) := by
        simp [applyWall, hq]
      rw [List.foldl_cons, hacc]
      exact ih hmem

/-! ### Claim theorems -/

/-- C1: for every slotCount ≥ 1 and every nonempty obstacle list, the
selection builds the per-slot minimum-distance array (initialized to the
maximum representable distance, updated only by enabled obstacles with
positive distance at index slotIndex mod slotCount) and returns the slot
with the largest per-slot minimum, ties broken by the lowest index; in the
concrete scenario with slotCount 6 and obstacles (slot 0, distance 50,
enabled) and (slot 2, distance 10, enabled) the selected slot is 1. -/
theorem slotSelection_follows_spec :
    (∀ (n : Nat) (walls : List Wall), 1 ≤ n → walls ≠ [] →
      ∃ r s, minDistances n walls = some r ∧ r.length = n ∧
        (∀ i, i < n → r[i]? = some (specMinDistance n walls i)) ∧
        selectSlot n walls = some (some s) ∧ s < n ∧
        (∀ j, j < n →
          specMinDistance n walls j ≤ specMinDistance n walls s) ∧
        (∀ j, j < n →
          specMinDistance n walls j = specMinDistance n walls s → s ≤ j)) ∧
    selectSlot 6 [⟨0, 50, true⟩, ⟨2, 10, true⟩] = some (some 1) := by
  constructor
  · intro n walls hn hw
    obtain ⟨r, hr, hrl, hri⟩ := minDistances_spec hn walls
    have hrne : r ≠ [] := by
      intro he
      rw [he] at hrl
      simp at hrl
      omega
    have hemp : walls.isEmpty = false := by simp [List.isEmpty_iff, hw]
    have hsel : selectSlot n walls = some (some (argmaxFirst r)) := by
      simp [selectSlot, hemp, hr]
    have hslt : argmaxFirst r < n := hrl ▸ argmaxFirst_lt hrne
    have hsmax : specMinDistance n walls (argmaxFirst r) = listMax r := by
      have h1 := hri (argmaxFirst r) hslt
      have h2 := argmaxFirst_getElem hrne
      rw [h1] at h2
      exact Option.some_inj.mp h2
    refine ⟨r, argmaxFirst r, hr, hrl, hri, hsel, hslt, ?_, ?_⟩
    · intro j hj
      rw [hsmax]
      exact le_listMax (hri j hj)
    · intro j hj heq
      apply argmaxFirst_first
      rw [← hsmax, ← heq]
      exact hri j hj
  · decide

/-- Witness for C1 at the concrete scenario of the claim. -/
theorem slotSelection_follows_spec_witness :
    ∃ r s, minDistances 6 [⟨0, 50, true⟩, ⟨2, 10, true⟩] = some r ∧
      r.length = 6 ∧
      (∀ i, i < 6 →
        r[i]? = some (specMinDistance 6 [⟨0, 50, true⟩, ⟨2, 10, true⟩] i)) ∧
      selectSlot 6 [⟨0, 50, true⟩, ⟨2, 10, true⟩] = some (some s) ∧ s < 6 ∧
      (∀ j, j < 6 →
        specMinDistance 6 [⟨0, 50, true⟩, ⟨2, 10, true⟩] j ≤
          specMinDistance 6 [⟨0, 50, true⟩, ⟨2, 10, true⟩] s) ∧
      (∀ j, j < 6 →
        specMinDistance 6 [⟨0, 50, true⟩, ⟨2, 10, true⟩] j =
          specMinDistance 6 [⟨0, 50, true⟩, ⟨2, 10, true⟩] s → s ≤ j) :=
  slotSelection_follows_spec.1 6 [⟨0, 50, true⟩, ⟨2, 10, true⟩]
    (by decide) (by decide)

/-- C2: for slotCount ≥ 1 the selection returns an index below slotCount on
every nonempty obstacle list, and no decision on the empty list. -/
theorem selectSlot_range_and_empty :
    ∀ (n : Nat) (walls : List Wall), 1 ≤ n →
      (walls ≠ [] → ∃ s, selectSlot n walls = some (some s) ∧ s < n) ∧
      (walls = [] → selectSlot n walls = some none) := by
  intro n walls hn
  constructor
  · intro hw
    obtain ⟨r, hr, hrl, _⟩ := minDistances_spec hn walls
    have hrne : r ≠ [] := by
      intro he
      rw [he] at hrl
      simp at hrl
      omega
    have hemp : walls.isEmpty = false := by simp [List.isEmpty_iff, hw]
    exact ⟨argmaxFirst r, by simp [selectSlot, hemp, hr],
      hrl ▸ argmaxFirst_lt hrne⟩
  · intro hw
    subst hw
    rfl

/-- Witness for C2 at slotCount 1, with one live wall and with no walls. -/
theorem selectSlot_range_and_empty_witness :
    (∃ s, selectSlot 1 [⟨0, 1, true⟩] = some (some s) ∧ s < 1) ∧
    selectSlot 1 ([] : List Wall) = some none :=
  ⟨(selectSlot_range_and_empty 1 [⟨0, 1, true⟩] (by decide)).1 (by decide),
   (selectSlot_range_and_empty 1 [] (by decide)).2 rfl⟩

/-- C3: with slotCount ≥ 1, on a nonempty obstacle list in which every
obstacle is disabled or has zero distance, the selection returns slot 0
rather than no decision. -/
theorem selectSlot_all_inert :
    ∀ (n : Nat) (walls : List Wall), 1 ≤ n → walls ≠ [] →
      (∀ w ∈ walls, w.enabled = false ∨ w.distance = 0) →
      selectSlot n walls = some (some 0) := by
  intro n walls hn hw hall
  have hq : ∀ w ∈ walls, wallQualifies w = false := by
    intro w hwm
    rcases hall w hwm with he | hd
    · simp [wallQualifies, he]
    · simp [wallQualifies, hd]
  have hmd : minDistances n walls = some (List.replicate n DWORD_MAX) :=
    foldl_no_qual n walls (List.replicate n DWORD_MAX) hq
  have hemp : walls.isEmpty = false := by simp [List.isEmpty_iff, hw]
  simp [selectSlot, hemp, hmd, argmaxFirst_replicate]

/-- Witness for C3: one disabled wall and one zero-distance wall. -/
theorem selectSlot_all_inert_witness :
    selectSlot 6 [⟨0, 50, false⟩, ⟨2, 0, true⟩] = some (some 0) :=
  selectSlot_all_inert 6 [⟨0, 50, false⟩, ⟨2, 0, true⟩]
    (by decide) (by decide) (by decide)

/-- C4: for every slot value and slotCount ≥ 1, `SetPlayerSlot` computes
`floor(360 / slotCount) * (slot mod slotCount) + floor(180 / slotCount)`
and writes exactly that value to both mirrored player-angle fields (all
other fields are untouched). -/
theorem setPlayerSlot_writes_center_angle :
    ∀ (st : GameState) (slot : Nat), 1 ≤ st.numSlots →
      ∃ st2, SetPlayerSlot st slot = some st2 ∧
        st2.playerAngle =
          360 / st.numSlots * (slot % st.numSlots) + 180 / st.numSlots ∧
        st2.playerAngle2 =
          360 / st.numSlots * (slot % st.numSlots) + 180 / st.numSlots ∧
        st2.numSlots = st.numSlots ∧
        st2.mouseDownLeft = st.mouseDownLeft ∧
        st2.mouseDownRight = st.mouseDownRight ∧
        st2.mouseDown = st.mouseDown ∧
        st2.worldAngle = st.worldAngle := by
  intro st slot hn
  have h0 : ¬ st.numSlots = 0 := by omega
  refine ⟨{ st with
      playerAngle := 360 / st.numSlots * (slot % st.numSlots) +
        180 / st.numSlots,
      playerAngle2 := 360 / st.numSlots * (slot % st.numSlots) +
        180 / st.numSlots }, ?_, rfl, rfl, rfl, rfl, rfl, rfl, rfl⟩
  simp [SetPlayerSlot, h0]

/-- Witness for C4: slot 2 of 6 gives angle 60 * 2 + 30 = 150. -/
theorem setPlayerSlot_writes_center_angle_witness :
    ∃ st2, SetPlayerSlot ⟨0, 0, 6, 0, 0, 0, 0⟩ 2 = some st2 ∧
      st2.playerAngle = 360 / 6 * (2 % 6) + 180 / 6 ∧
      st2.playerAngle2 = 360 / 6 * (2 % 6) + 180 / 6 ∧
      st2.numSlots = 6 ∧ st2.mouseDownLeft = 0 ∧ st2.mouseDownRight = 0 ∧
      st2.mouseDown = 0 ∧ st2.worldAngle = 0 :=
  setPlayerSlot_writes_center_angle ⟨0, 0, 6, 0, 0, 0, 0⟩ 2 (by decide)

/-- C7: every remote-memory operation either transfers the full requested
byte count (and only then does the caller see the data) or fails; a partial
transfer is never returned as usable data. -/
theorem memory_full_transfer_or_fail :
    ∀ (success : Bool) (numRead numWritten size length d : Nat)
      (buffer : List Nat),
      (∀ x : Nat, memoryRead success numRead size d = some x →
        numRead = size ∧ x = d) ∧
      (∀ bs, memoryReadBytes success numRead length buffer = some bs →
        numRead = length ∧ bs = buffer) ∧
      (∀ u : Unit, memoryWrite success numWritten size = some u →
        numWritten = size) ∧
      (numRead ≠ size → memoryRead success numRead size (d : Nat) = none) := by
  intro success numRead numWritten size length d buffer
  refine ⟨?_, ?_, ?_, ?_⟩
  · intro x hx
    unfold memoryRead at hx
    by_cases h : success = true ∧ numRead = size
    · rw [if_pos h] at hx
      exact ⟨h.2, (Option.some_inj.mp hx).symm⟩
    · rw [if_neg h] at hx
      cases hx
  · intro bs hbs
    unfold memoryReadBytes at hbs
    by_cases h : success = true ∧ numRead = length
    · rw [if_pos h] at hbs
      exact ⟨h.2, (Option.some_inj.mp hbs).symm⟩
    · rw [if_neg h] at hbs
      cases hbs
  · intro u hu
    unfold memoryWrite at hu
    by_cases h : success = true ∧ numWritten = size
    · exact h.2
    · rw [if_neg h] at hu
      cases hu
  · intro h
    unfold memoryRead
    rw [if_neg (by tauto)]

/-- Witness for C7: a full 4-byte read succeeds and reports 4 bytes; a
3-of-4-byte partial read is rejected. -/
theorem memory_full_transfer_or_fail_witness :
    ((4 : Nat) = 4 ∧ (7 : Nat) = 7) ∧
    ((4 : Nat) = 4 ∧ ([5] : List Nat) = [5]) ∧
    (8 : Nat) = 8 ∧
    memoryRead true 3 4 (7 : Nat) = none := by
  obtain ⟨h1, h2, _, _⟩ := memory_full_transfer_or_fail true 4 8 4 4 7 [5]
  refine ⟨h1 7 (by decide), h2 [5] (by decide), ?_, ?_⟩
  · exact (memory_full_transfer_or_fail true 4 8 8 4 7 [5]).2.2.1 ()
      (by decide)
  · exact (memory_full_transfer_or_fail true 3 8 4 4 7 [5]).2.2.2 (by decide)

/-- C8: on a control-loop iteration whose freshly read obstacle list is
empty, the target state is returned unchanged (no player-angle,
input-state or world-angle write) and no status line is emitted. -/
theorem tick_empty_no_effect :
    ∀ (st : GameState) (walls : List Wall), walls = [] →
      tick st walls = some (st, []) := by
  intro st walls hw
  subst hw
  rfl

/-- Witness for C8 at a concrete state. -/
theorem tick_empty_no_effect_witness :
    tick ⟨150, 150, 6, 0, 0, 1, 42⟩ [] = some (⟨150, 150, 6, 0, 0, 1, 42⟩, []) :=
  tick_empty_no_effect ⟨150, 150, 6, 0, 0, 1, 42⟩ [] rfl

/-- C9 counterexample: starting from the all-zero input state, the
`setMovement` sequence Released, Right, Left leaves BOTH direction bytes
asserted at once, refuting that at most one movement direction is asserted
after any sequence of `setMovement` calls. -/
theorem movement_both_directions_cex :
    (applyMoves [MoveDir.released, MoveDir.right, MoveDir.left]
      ⟨0, 0, 6, 0, 0, 0, 0⟩).mouseDownLeft = 1 ∧
    (applyMoves [MoveDir.released, MoveDir.right, MoveDir.left]
      ⟨0, 0, 6, 0, 0, 0, 0⟩).mouseDownRight = 1 := by
  decide

/-- C9 amended: `Released` clears all three input-state bytes including the
generic input-active flag, and asserting either direction also sets the
generic flag; but asserting one direction does not clear the other, so two
directions can be asserted simultaneously. -/
theorem movement_flags_behavior :
    ∀ st : GameState,
      (ReleaseMouse st).mouseDownLeft = 0 ∧
      (ReleaseMouse st).mouseDownRight = 0 ∧
      (ReleaseMouse st).mouseDown = 0 ∧
      (StartMovingLeft st).mouseDownLeft = 1 ∧
      (StartMovingLeft st).mouseDown = 1 ∧
      (StartMovingLeft st).mouseDownRight = st.mouseDownRight ∧
      (StartMovingRight st).mouseDownRight = 1 ∧
      (StartMovingRight st).mouseDown = 1 ∧
      (StartMovingRight st).mouseDownLeft = st.mouseDownLeft := by
  intro st
  exact ⟨rfl, rfl, rfl, rfl, rfl, rfl, rfl, rfl, rfl⟩

/-- C10 counterexample: with slotCount 0 a nonempty obstacle list whose
only wall is disabled completes the selection WITHOUT any modulo by zero
or out-of-bounds indexing (the empty-range `max_element` yields index 0),
so the claim that slot selection on every nonempty list performs a modulo
by zero is false as stated. -/
theorem slotCountZero_inert_list_cex :
    selectSlot 0 [⟨3, 7, false⟩] = some (some 0) := by
  decide

/-- C10 amended: slotCount ≥ 1 is an unchecked precondition; with slot
count 0 `SetPlayerSlot` divides and takes modulo by zero (always fails),
the slot selection fails by modulo-by-zero/out-of-bounds indexing exactly
when some obstacle is enabled with positive distance, and a whole loop
iteration on any nonempty obstacle list fails in every case. -/
theorem slotCountZero_unchecked :
    (∀ (st : GameState) (slot : Nat), st.numSlots = 0 →
      SetPlayerSlot st slot = none) ∧
    (∀ walls : List Wall, (∃ w ∈ walls, wallQualifies w = true) →
      selectSlot 0 walls = none) ∧
    (∀ (st : GameState) (walls : List Wall), st.numSlots = 0 → walls ≠ [] →
      tick st walls = none) := by
  refine ⟨?_, ?_, ?_⟩
  · intro st slot h
    simp [SetPlayerSlot, h]
  · intro walls h
    have hne : walls ≠ [] := by
      obtain ⟨w, hw, _⟩ := h
      intro he
      subst he
      simp at hw
    have hemp : walls.isEmpty = false := by simp [List.isEmpty_iff, hne]
    simp [selectSlot, hemp, minDistances_zero_of_qual h]
  · intro st walls h0 hne
    have hemp : walls.isEmpty = false := by simp [List.isEmpty_iff, hne]
    cases hmd : minDistances st.numSlots walls with
    | none => simp [tick, hemp, hmd]
    | some r =>
      rw [h0] at hmd
      simp [tick, hemp, hmd, SetPlayerSlot, h0]

/-- Witness for C10 at concrete inputs: a zero-slot state always fails
`SetPlayerSlot`, a live wall breaks selection at slot count 0, and a whole
iteration fails even on a disabled wall. -/
theorem slotCountZero_unchecked_witness :
    SetPlayerSlot ⟨0, 0, 0, 0, 0, 0, 0⟩ 5 = none ∧
    selectSlot 0 [⟨7, 3, true⟩] = none ∧
    tick ⟨0, 0, 0, 0, 0, 0, 0⟩ [⟨3, 7, false⟩] = none :=
  ⟨slotCountZero_unchecked.1 ⟨0, 0, 0, 0, 0, 0, 0⟩ 5 rfl,
   slotCountZero_unchecked.2.1 [⟨7, 3, true⟩]
     ⟨⟨7, 3, true⟩, by decide, by decide⟩,
   slotCountZero_unchecked.2.2 ⟨0, 0, 0, 0, 0, 0, 0⟩ [⟨3, 7, false⟩] rfl
     (by decide)⟩

set_option maxRecDepth 1000000

/-- Exhaustive check: for every slot count up to 18 the set-then-get round
trip recovers the slot, including the binary32 arithmetic of the getter. -/
theorem roundTrip_le18 :
    ∀ n < 19, 1 ≤ n → ∀ k < n,
      gpsVal (360 / n * (k % n) + 180 / n) n = k := by
  decide

/-- Exhaustive check: for angles below 360 and slot counts up to 6 the
binary32 getter agrees with the exact rational floor. -/
theorem gps_exact_small :
    ∀ a < 360, ∀ n < 7, 1 ≤ n → gpsVal a n = a * n / 360 := by
  decide

/-- C5 counterexample: with slotCount 19, `SetPlayerSlot 10` stores angle
18 * 10 + 9 = 189, and `GetPlayerSlot` then returns 9, not 10 (the integer
divisions in the angle formula lose too much for 19 slots), refuting the
round trip for all slotCount ≥ 1. -/
theorem setThenGetPlayerSlot_cex :
    ∃ st2, SetPlayerSlot ⟨0, 0, 19, 0, 0, 0, 0⟩ 10 = some st2 ∧
      GetPlayerSlot st2 = 9 ∧ GetPlayerSlot st2 ≠ 10 :=
  ⟨⟨189, 189, 19, 0, 0, 0, 0⟩, by decide, by decide, by decide⟩

/-- C5 amended: for every slotCount between 1 and 18 and every slot
k < slotCount, `SetPlayerSlot k` followed by `GetPlayerSlot` (slot count
unchanged in between) returns k. -/
theorem setThenGetPlayerSlot :
    ∀ (st : GameState) (k : Nat), 1 ≤ st.numSlots → st.numSlots ≤ 18 →
      k < st.numSlots →
      ∃ st2, SetPlayerSlot st k = some st2 ∧ GetPlayerSlot st2 = k := by
  intro st k h1 h18 hk
  have h0 : ¬ st.numSlots = 0 := by omega
  refine ⟨{ st with
      playerAngle := 360 / st.numSlots * (k % st.numSlots) +
        180 / st.numSlots,
      playerAngle2 := 360 / st.numSlots * (k % st.numSlots) +
        180 / st.numSlots }, ?_, ?_⟩
  · simp [SetPlayerSlot, h0]
  · exact roundTrip_le18 st.numSlots (by omega) h1 k hk

/-- Witness for the amended C5 at slotCount 6, slot 3. -/
theorem setThenGetPlayerSlot_witness :
    ∃ st2, SetPlayerSlot ⟨0, 0, 6, 0, 0, 0, 0⟩ 3 = some st2 ∧
      GetPlayerSlot st2 = 3 :=
  setThenGetPlayerSlot ⟨0, 0, 6, 0, 0, 0, 0⟩ 3 (by decide) (by decide)
    (by decide)

/-- C6 counterexample: at stored angle 113 with slotCount 360 the binary32
computation of `GetPlayerSlot` returns 112 while the exact rational floor
of angle * slotCount / 360 is 113. -/
theorem getPlayerSlot_not_exact_floor_cex :
    GetPlayerSlot ⟨113, 113, 360, 0, 0, 0, 0⟩ = 112 ∧
    (113 : Nat) * 360 / 360 = 113 ∧
    GetPlayerSlot ⟨113, 113, 360, 0, 0, 0, 0⟩ ≠ 113 * 360 / 360 := by
  refine ⟨by decide, by decide, by decide⟩

/-- C6 amended: for every stored player angle below 360 and every slotCount
between 1 and 6, `GetPlayerSlot` returns exactly
floor(angle * slotCount / 360); outside this range the binary32 rounding
can miss the exact floor. -/
theorem getPlayerSlot_floor_small :
    ∀ st : GameState, st.playerAngle < 360 → 1 ≤ st.numSlots →
      st.numSlots ≤ 6 →
      GetPlayerSlot st = st.playerAngle * st.numSlots / 360 := by
  intro st ha h1 h6
  exact gps_exact_small st.playerAngle ha st.numSlots (by omega) h1

/-- Witness for the amended C6 at angle 330, slotCount 6. -/
theorem getPlayerSlot_floor_small_witness :
    GetPlayerSlot ⟨330, 330, 6, 0, 0, 0, 0⟩ = 330 * 6 / 360 :=
  getPlayerSlot_floor_small ⟨330, 330, 6, 0, 0, 0, 0⟩ (by decide)
    (by decide) (by decide)
